import Mathlib

/-!
Verification development for the Crossref Preprint Servers Metadata Collector
(`streamlit_crossref_preprints_app.py`).

The HTTP layer is modelled at two levels:

* `api_get` embeds the retry/backoff loop of the Python `api_get` function
  over an abstract stream of responses (`attempts k` is the response the
  network would give to the k-th GET issued by the loop).  Besides the result
  it records how many GET requests were issued and the trace of sleeps
  performed, so that retry counts and backoff growth are provable facts.

* `CrNet` is an endpoint-level oracle: each Crossref endpoint used by the
  resolver / sampler / exporter is a pure function from its request data to
  `Except CrErr answer`, where an `error` models the exception that the
  Python code would see when `api_get` ultimately raises (or JSON decoding
  fails).  The resolver, sampler and exporter are translated statement by
  statement over this oracle; Python `try/except` blocks become explicit
  `match` on the `Except` value exactly where the source has them.

`random.shuffle` is modelled by an explicit `shuffle` function parameter.
-/

namespace CrossrefApp

/-- Errors surfaced by the HTTP layer: an HTTP error status raised by
`raise_for_status`, a Python `NameError` (unbound variable `r`), or a
JSON-decoding failure. -/
inductive CrErr where
  | httpStatus (code : Nat)
  | nameError
  | parse
deriving DecidableEq, Repr

/-- An HTTP response: a status code plus a body of some type. -/
structure HResp (β : Type) where
  status : Nat
  body : β
deriving DecidableEq, Repr

/-- Statuses the Python code treats as transient: `(429, 500, 502, 503, 504)`. -/
def transientStatus (s : Nat) : Bool :=
  s == 429 || s == 500 || s == 502 || s == 503 || s == 504

/-- Statuses on which `requests.Response.raise_for_status` raises. -/
def raisesForStatus (s : Nat) : Bool :=
  400 ≤ s && s < 600

/-- Observable outcome of one `api_get` call: the returned response or the
raised exception, the number of GET requests issued, and the trace of sleep
durations (backoff sleeps and the final inter-call delay). -/
structure ApiOutcome (β : Type) where
  result : Except CrErr (HResp β)
  gets : Nat
  sleeps : List ℚ
deriving Repr

/-- The retry loop of `api_get`: `k` is the index of the next attempt, `fuel`
the remaining iterations of `for _ in range(max_retries)`, `backoff` the
current backoff duration, and `last` the response bound to `r` so far
(`none` when the loop body has never run, in which case the trailing
`r.raise_for_status()` is a `NameError`). -/
def api_get_loop (attempts : Nat → HResp β) (sleep_s : ℚ) :
    Nat → Nat → ℚ → Option (HResp β) → ApiOutcome β
  | _, 0, _, none => ⟨.error .nameError, 0, []⟩
  | _, 0, _, some r =>
      if raisesForStatus r.status then ⟨.error (.httpStatus r.status), 0, []⟩
      else ⟨.ok r, 0, []⟩
  | k, fuel + 1, backoff, _ =>
      let r := attempts k
      if r.status = 200 then
        ⟨.ok r, 1, if 0 < sleep_s then [sleep_s] else []⟩
      else if transientStatus r.status then
        let rest := api_get_loop attempts sleep_s (k + 1) fuel (backoff * (8 / 5)) (some r)
        ⟨rest.result, rest.gets + 1, backoff :: rest.sleeps⟩
      else if raisesForStatus r.status then
        ⟨.error (.httpStatus r.status), 1, []⟩
      else
        let rest := api_get_loop attempts sleep_s (k + 1) fuel backoff (some r)
        ⟨rest.result, rest.gets + 1, rest.sleeps⟩

/-- Model of the Python `api_get(url, sleep_s, max_retries)`: run the retry
loop with initial backoff `sleep_s` over the response stream `attempts`.
`max_retries ≤ 0` makes `range(max_retries)` empty. -/
def api_get (attempts : Nat → HResp β) (sleep_s : ℚ) (max_retries : Int) : ApiOutcome β :=
  api_get_loop attempts sleep_s 0 max_retries.toNat sleep_s none

/-- Python `str.split(sep)` on a character list: split at every character
satisfying `p`, keeping empty pieces (structural recursion, so that concrete
inputs evaluate in the kernel). -/
def pySplitChar (p : Char → Bool) : List Char → List (List Char)
  | [] => [[]]
  | c :: rest =>
      let r := pySplitChar p rest
      if p c then [] :: r
      else (c :: r.headD []) :: r.tail

/-- Python `(s or "").strip().split()` (no separator): split on whitespace
runs, dropping empty pieces. -/
def pySplitWs (s : String) : List String :=
  ((pySplitChar (fun c => c.isWhitespace) s.data).filter fun t => t ≠ []).map String.mk

/-- Model of `norm`. -/
def norm (s : String) : String :=
  String.intercalate " " (pySplitWs s)

/-- Model of `to_slug`. -/
def to_slug (s : String) : String :=
  let t := String.intercalate "-" (pySplitWs (String.mk ((norm s).data.map Char.toLower)))
  if t = "" then "server" else t

/-- Model of `safe_list`: split on `";"`, normalise each piece, drop
empties. -/
def safe_list (s : String) : List String :=
  if s = "" then []
  else (((pySplitChar (fun c => c = ';') s.data).map fun cs => norm (String.mk cs)).filter
    fun p => p ≠ "")

/-- Python `a or b` for an optional string field: `b` when the field is
missing or empty. -/
def pyOr (a : Option String) (b : String) : String :=
  match a with
  | some s => if s = "" then b else s
  | none => b

/-- Python truthiness of an optional string: `Some ""` and `None` are falsy. -/
def optStrTruthy : Option String → Option String
  | some s => if s = "" then none else some s
  | none => none

/-- Journal metadata message (`/journals/{issn}` message, or one item of a
`/journals?query=` search).  `title` and `issns` model the `"title"` and
`"ISSN"` fields; `nonempty` models the Python truthiness of the whole dict
(used by the exporter's `if cand.get("journal_meta"):`). -/
structure JMeta where
  title : Option String
  issns : List String
  nonempty : Bool
deriving DecidableEq, Repr

/-- Member metadata message (`/members/{id}` message): the `"primary-name"`
and `"id"` fields. -/
structure MMeta where
  primary_name : Option String
  mid : Option String
deriving DecidableEq, Repr

/-- One raw sample record (opaque Crossref work JSON). -/
structure Item where
  data : Nat
deriving DecidableEq, Repr

/-- A resolver candidate dict: strategy tag, identifier, label, estimated
total, and optional nested metadata. -/
structure Candidate where
  strategy : String
  id : String
  label : String
  estimate_total : Int
  journal_meta : Option JMeta := none
  member_meta : Option MMeta := none
deriving DecidableEq, Repr

/-- The deduplication key used by `add_cand`: `(c.get("strategy"), c.get("id"))`. -/
def candKey (c : Candidate) : String × String :=
  (c.strategy, c.id)

/-- The `/works` query built by `sample_preprints`: optional
`query.container-title`, the `filter=` list, `rows=`, and the optional sort
parameter. -/
structure WorksQuery where
  containerTitleQuery : Option String
  filters : List String
  rows : Int
  sortParam : Option String
deriving DecidableEq, Repr

/-- Endpoint-level oracle for the Crossref API.  Each field gives the decoded
answer of one endpoint family as a pure function of the request data; an
`error` models the exception Python code would see (an `api_get` failure or a
JSON-decoding failure). -/
structure CrNet where
  /-- `GET /journals/{issn}`, decoded message. -/
  journals : String → Except CrErr JMeta
  /-- `cr_total_from_works`: `GET /works?filter=...&rows=1`, decoded
  `total-results`, keyed by the filter list. -/
  worksTotal : List String → Except CrErr Int
  /-- `GET /members/{id}`, decoded message. -/
  members : String → Except CrErr MMeta
  /-- `GET /journals?query={title}&rows=5`, decoded items. -/
  journalsQuery : String → Except CrErr (List JMeta)
  /-- `GET /works?query.container-title={title}&filter=type:posted-content&rows=1`,
  decoded `total-results`. -/
  containerTitleTotal : String → Except CrErr Int
  /-- `GET /works?...` issued by `sample_preprints`, decoded items. -/
  worksItems : WorksQuery → Except CrErr (List Item)

/-- Model of `resolve_by_issn`.  The `try` block covers only the
`/journals/{issn}` lookup (a failure there returns `None`); the subsequent
`cr_total_from_works` call is outside the `try`, so its failure propagates. -/
def resolve_by_issn (net : CrNet) (issn : String) : Except CrErr (Option Candidate) :=
  match net.journals issn with
  | .error _ => .ok none
  | .ok jmsg =>
      match net.worksTotal ["issn:" ++ issn, "type:posted-content"] with
      | .error e => .error e
      | .ok total =>
          let title := pyOr jmsg.title issn
          .ok (some { strategy := "issn", id := issn,
                      label := title ++ " — ISSN:" ++ issn,
                      estimate_total := total, journal_meta := some jmsg })

/-- Model of `resolve_by_prefix` (named `resolve_by_pref` here): an
unprotected `cr_total_from_works` call, so its failure propagates. -/
def resolve_by_pref (net : CrNet) (p : String) : Except CrErr (Option Candidate) :=
  match net.worksTotal ["prefix:" ++ p, "type:posted-content"] with
  | .error e => .error e
  | .ok total =>
      .ok (some { strategy := "prefix", id := p,
                  label := "DOI prefix " ++ p, estimate_total := total })

/-- Model of `resolve_by_member`.  The `try` covers only the `/members/{id}`
lookup (falling back to the bare id as display name); `cr_total_from_works`
is outside the `try`. -/
def resolve_by_member (net : CrNet) (member_id : String) : Except CrErr (Option Candidate) :=
  let nm :=
    match net.members member_id with
    | .error _ => (member_id, none)
    | .ok mmsg => (pyOr mmsg.primary_name (pyOr mmsg.mid member_id), some mmsg)
  match net.worksTotal ["member:" ++ member_id, "type:posted-content"] with
  | .error e => .error e
  | .ok total =>
      .ok (some { strategy := "member", id := member_id,
                  label := "Member " ++ nm.1, estimate_total := total,
                  member_meta := nm.2 })

/-- Candidates produced inside the journal-search `try` block of
`resolve_by_title`, enumerating the nested double loop (each returned
journal, then its first two ISSNs) as a flat pair list.  Each pair gets a
`cr_total_from_works` call; a failure of any of those calls aborts the block
but keeps the candidates appended so far (`out.append` then `except: pass`). -/
def titleJournalCands (net : CrNet) : List (JMeta × String) → List Candidate
  | [] => []
  | (j, issn) :: rest =>
      match net.worksTotal ["issn:" ++ issn, "type:posted-content"] with
      | .error _ => []
      | .ok total =>
          { strategy := "title→issn", id := issn,
            label := pyOr j.title "(no title)" ++ " — ISSN:" ++ issn,
            estimate_total := total, journal_meta := some j }
            :: titleJournalCands net rest

/-- The (journal, issn) pairs visited by the nested loops of
`resolve_by_title`: for each item of the journal search, its first two ISSNs
(`issns[:2]`), in order. -/
def titleJournalPairs (items : List JMeta) : List (JMeta × String) :=
  items.flatMap fun j => (j.issns.take 2).map fun issn => (j, issn)

/-- Model of `resolve_by_title`: the journal search block (fully inside a
`try`, partial output kept on failure) followed by the container-title
fallback (also fully inside a `try`). -/
def resolve_by_title (net : CrNet) (title : String) : List Candidate :=
  let part1 :=
    match net.journalsQuery title with
    | .error _ => []
    | .ok items => titleJournalCands net (titleJournalPairs items)
  let part2 :=
    match net.containerTitleTotal title with
    | .error _ => []
    | .ok total =>
        if 0 < total then
          [{ strategy := "container-title", id := title,
             label := "Container-title match: \"" ++ title ++ "\"", estimate_total := total }]
        else []
  part1 ++ part2

/-- One input row of the servers table (all fields strings, missing cells
empty, as produced by the CSV/paste parsing step). -/
structure InputRow where
  server_name : String
  issn_l : String
  issn_print : String
  issn_electronic : String
  doi_prefixes : String
  crossref_member_id : String
  title_exact : String
  title_variants : String
  notes : String
deriving DecidableEq, Repr

/-- Deduplication state of `resolve_candidates_for_server`: the `seen` key
set and the accumulated candidate list. -/
structure DState where
  seen : List (String × String)
  cands : List Candidate
deriving DecidableEq, Repr

/-- Model of `add_cand` for a present candidate (`add_cand` on `None` is the
identity and is absorbed by folding over `Option.toList`). -/
def add_cand (st : DState) (c : Candidate) : DState :=
  if candKey c ∈ st.seen then st
  else ⟨candKey c :: st.seen, st.cands ++ [c]⟩

/-- The ordered sequence of sub-lookup results produced by
`resolve_candidates_for_server` for one input row: ISSN lookups, then DOI
prefix lookups, then the optional member lookup, then the exact-title
candidates (truncated to `per_title`), then per title variant (variants
truncated to `per_title`) the title candidates (each truncated to
`per_title`).  Each element is the `Except` outcome of one sub-lookup,
carrying the candidates it contributes. -/
def productionStream (net : CrNet) (row : InputRow) (per_title : Nat) :
    List (Except CrErr (List Candidate)) :=
  ((safe_list row.issn_l ++ safe_list row.issn_print ++ safe_list row.issn_electronic).map
      fun issn => (resolve_by_issn net issn).map Option.toList)
  ++ ((safe_list row.doi_prefixes).map
      fun p => (resolve_by_pref net p).map Option.toList)
  ++ (if norm row.crossref_member_id ≠ "" then
        [(resolve_by_member net (norm row.crossref_member_id)).map Option.toList]
      else [])
  ++ (let te := if norm row.title_exact ≠ "" then norm row.title_exact
                else norm row.server_name
      if te ≠ "" then [.ok ((resolve_by_title net te).take per_title)] else [])
  ++ (((safe_list row.title_variants).take per_title).map
      fun tv => .ok ((resolve_by_title net tv).take per_title))

/-- Run a sequence of sub-lookup outcomes against an accumulator, exactly as
the Python loops do: the first raised exception aborts the whole resolution;
otherwise each produced candidate is folded into the state in order. -/
def runStream (step : σ → Candidate → σ) (init : σ) :
    List (Except CrErr (List Candidate)) → Except CrErr σ
  | [] => .ok init
  | e :: rest =>
      match e with
      | .error err => .error err
      | .ok cs => runStream step (cs.foldl step init) rest

/-- Collect a sequence of sub-lookup outcomes into the flat (undeduplicated)
candidate list, aborting at the first exception. -/
def collectStream : List (Except CrErr (List Candidate)) → Except CrErr (List Candidate)
  | [] => .ok []
  | e :: rest =>
      match e with
      | .error err => .error err
      | .ok cs =>
          match collectStream rest with
          | .error err => .error err
          | .ok l => .ok (cs ++ l)

/-- Model of `resolve_candidates_for_server`: fold `add_cand` over the
sub-lookup production stream and return the deduplicated candidate list. -/
def resolve_candidates_for_server (net : CrNet) (row : InputRow) (per_title : Nat) :
    Except CrErr (List Candidate) :=
  (runStream add_cand ⟨[], []⟩ (productionStream net row per_title)).map DState.cands

/-- The raw (undeduplicated) candidate sequence the resolver produces for one
input row, before `add_cand` filtering. -/
def resolve_candidates_raw (net : CrNet) (row : InputRow) (per_title : Nat) :
    Except CrErr (List Candidate) :=
  collectStream (productionStream net row per_title)

/-- First-occurrence deduplication by `candKey`, relative to an already-seen
key set. -/
def dedupFirst (seen : List (String × String)) : List Candidate → List Candidate
  | [] => []
  | c :: rest =>
      if candKey c ∈ seen then dedupFirst seen rest
      else c :: dedupFirst (candKey c :: seen) rest

/-- The single `/works` query `sample_preprints` builds for a candidate:
the `type:posted-content` filter, the strategy-specific filter, the optional
date-bound filters, the sort parameter, and the row count (over-fetched and
clamped to at least 1 for "random" mode). -/
def sampleQuery (candidate : Candidate) (n : Int) (sort_mode : String)
    (date_from date_to : Option String) : WorksQuery :=
  let strat := candidate.strategy
  let cid := candidate.id
  let filters := ["type:posted-content"]
  let filters := filters ++
    (if strat = "issn" ∨ strat = "title→issn" then ["issn:" ++ cid]
     else if strat = "prefix" then ["prefix:" ++ cid]
     else if strat = "member" then ["member:" ++ cid]
     else [])
  let filters := filters ++
    (match optStrTruthy date_from with
     | some d => ["from-pub-date:" ++ d]
     | none => [])
  let filters := filters ++
    (match optStrTruthy date_to with
     | some d => ["until-pub-date:" ++ d]
     | none => [])
  let sortParam : Option String :=
    if sort_mode = "latest" then some "sort=published&order=desc"
    else if sort_mode = "most-cited" then some "sort=is-referenced-by-count&order=desc"
    else none
  let rows0 : Int := if sort_mode ≠ "random" then n else min 50 (max 10 (n * 5))
  let rows : Int := if rows0 < 1 then 1 else rows0
  { containerTitleQuery := if strat = "container-title" then some cid else none,
    filters := filters, rows := rows, sortParam := sortParam }

/-- Model of `sample_preprints`: besides the fetched items (or the raised
exception) it returns the list of `/works` queries issued, so that "no
request is made" is a provable fact.  `shuffle` models `random.shuffle`. -/
def sample_preprints (net : CrNet) (candidate : Candidate) (n : Int) (sort_mode : String)
    (date_from date_to : Option String) (shuffle : List Item → List Item) :
    Except CrErr (List Item) × List WorksQuery :=
  if n ≤ 0 then (.ok [], [])
  else
    let query := sampleQuery candidate n sort_mode date_from date_to
    match net.worksItems query with
    | .error e => (.error e, [query])
    | .ok items =>
        let out :=
          if sort_mode = "random" ∧ items ≠ [] then (shuffle items).take n.toNat
          else items.take n.toNat
        (.ok out, [query])

/-- One row of `servers.csv`. -/
structure SummaryRow where
  server_name : String
  presence_in_crossref : String
  matched_strategy : String
  matched_ids : String
  total_results_estimate : Int
  sample_count_saved : Nat
  notes : String
deriving DecidableEq, Repr

/-- One entry written into the output ZIP (payloads kept structured instead
of serialised). -/
inductive ZipEntry where
  | summaryJson (sample_n : Int) (sort_mode : String) (date_from date_to : Option String)
  | journalJson (slug : String) (meta : JMeta)
  | sampleDoc (slug strat cid : String) (idx : Nat) (item : Item)
  | serversCsv (rows : List SummaryRow)
deriving DecidableEq, Repr

/-- A sample fetch attempt during export: (server name, strategy, id). -/
abbrev Fetch := String × String × String

/-- Accumulator of the per-server candidate loop of `build_zip_crossref`. -/
structure ExportAcc where
  strategies : List String
  ids : List String
  total_estimate : Int
  sample_saved : Nat
  entries : List ZipEntry
  fetches : List Fetch
deriving DecidableEq, Repr

/-- The empty `ExportAcc`. -/
def ExportAcc.init : ExportAcc := ⟨[], [], 0, 0, [], []⟩

/-- The global `(strategy, id) → candidate` map built at the start of
`build_zip_crossref`: later dict insertions win, so look the key up in the
reversed concatenation of all candidate lists. -/
def cand_lookup (cr_candidates : List (List Candidate)) (key : String × String) :
    Option Candidate :=
  cr_candidates.flatten.reverse.find? fun c => candKey c == key

/-- Estimated total a chosen pair contributes: the looked-up candidate's
`estimate_total`, or `0` when the pair misses the lookup. -/
def optTotal (lookup : String × String → Option Candidate) (p : String × String) : Int :=
  match lookup p with
  | some c => c.estimate_total
  | none => 0

/-- The `journal.json` zip entries written for one candidate: one entry when
the candidate carries a truthy journal dict (`if cand.get("journal_meta"):`),
none otherwise. -/
def journalEntries (slug : String) (cand : Candidate) : List ZipEntry :=
  match cand.journal_meta with
  | some m => if m.nonempty then [.journalJson slug m] else []
  | none => []

/-- Zip entries written for the works sampled for one candidate
(`enumerate(works, start=1)`). -/
def sampleDocs (slug strat cid : String) (works : List Item) : List ZipEntry :=
  (List.range works.length).zip works |>.map fun iw =>
    ZipEntry.sampleDoc slug strat cid (iw.1 + 1) iw.2

/-- The per-server candidate loop of `build_zip_crossref`: for each chosen
`(strategy, id)` pair append it to the matched lists, look it up (a missing
pair is skipped), accumulate its estimated total, write `journal.json` when
the candidate carries a truthy journal dict, and when `sample_n > 0` fetch
and persist its samples.  A sampling exception propagates (no `try` inside
`build_zip_crossref`). -/
def export_pairs (net : CrNet) (lookup : String × String → Option Candidate)
    (slug name : String) (sample_n : Int) (sort_mode : String)
    (date_from date_to : Option String) (shuffle : List Item → List Item) :
    List (String × String) → ExportAcc → Except CrErr ExportAcc
  | [], acc => .ok acc
  | (strat, cid) :: rest, acc =>
      let acc := { acc with strategies := acc.strategies ++ [strat],
                            ids := acc.ids ++ [cid] }
      match lookup (strat, cid) with
      | none => export_pairs net lookup slug name sample_n sort_mode date_from date_to shuffle rest acc
      | some cand =>
          let acc := { acc with total_estimate := acc.total_estimate + cand.estimate_total,
                                entries := acc.entries ++ journalEntries slug cand }
          if 0 < sample_n then
            match (sample_preprints net cand sample_n sort_mode
                    (optStrTruthy ((date_from.map norm))) (optStrTruthy ((date_to.map norm)))
                    shuffle).1 with
            | .error e => .error e
            | .ok works =>
                export_pairs net lookup slug name sample_n sort_mode date_from date_to shuffle rest
                  { acc with
                    entries := acc.entries ++ sampleDocs slug strat cid works,
                    sample_saved := acc.sample_saved + works.length,
                    fetches := acc.fetches ++ [(name, strat, cid)] }
          else
            export_pairs net lookup slug name sample_n sort_mode date_from date_to shuffle rest acc

/-- The summary row built for a server from its accumulated export state. -/
def mkSummaryRow (name : String) (notes : String) (acc : ExportAcc) : SummaryRow :=
  { server_name := name,
    presence_in_crossref := if 0 < acc.total_estimate then "yes" else "no",
    matched_strategy := String.intercalate ";" acc.strategies,
    matched_ids := String.intercalate ";" acc.ids,
    total_results_estimate := acc.total_estimate,
    sample_count_saved := acc.sample_saved,
    notes := notes }

/-- The summary row recorded for a server with no selected candidates. -/
def noSelectionRow (name : String) (notes : String) : SummaryRow :=
  { server_name := name, presence_in_crossref := "no",
    matched_strategy := "", matched_ids := "",
    total_results_estimate := 0, sample_count_saved := 0, notes := notes }

/-- The main server loop of `build_zip_crossref`: process `original_rows` in
order, producing summary rows, zip entries and the sample-fetch trace.  An
exception in any server's processing propagates and aborts the loop. -/
def build_loop (net : CrNet) (lookup : String × String → Option Candidate)
    (cr_selected : String → List (String × String)) (sample_n : Int) (sort_mode : String)
    (date_from date_to : Option String) (shuffle : List Item → List Item) :
    List InputRow → Except CrErr (List SummaryRow × List ZipEntry × List Fetch)
  | [] => .ok ([], [], [])
  | row :: rest =>
      let name := row.server_name
      let chosen := cr_selected name
      if chosen = [] then
        match build_loop net lookup cr_selected sample_n sort_mode date_from date_to shuffle rest with
        | .error e => .error e
        | .ok (rs, es, fs) => .ok (noSelectionRow name row.notes :: rs, es, fs)
      else
        match export_pairs net lookup (to_slug name) name sample_n sort_mode date_from date_to
                shuffle chosen ExportAcc.init with
        | .error e => .error e
        | .ok acc =>
            match build_loop net lookup cr_selected sample_n sort_mode date_from date_to shuffle rest with
            | .error e => .error e
            | .ok (rs, es, fs) =>
                .ok (mkSummaryRow name row.notes acc :: rs,
                     acc.entries ++ es, acc.fetches ++ fs)

/-- Result of `build_zip_crossref`: the `servers.csv` rows, the zip entries
in write order, and the trace of sample fetches attempted. -/
structure BuildResult where
  rows : List SummaryRow
  entries : List ZipEntry
  fetches : List Fetch
deriving DecidableEq, Repr

/-- Model of `build_zip_crossref`: write the selection summary, run the
server loop, then append `servers.csv`.  An exception from any server's
sampling propagates to the caller (the whole build fails). -/
def build_zip_crossref (net : CrNet) (cr_selected : String → List (String × String))
    (cr_candidates : List (List Candidate)) (original_rows : List InputRow)
    (sample_n : Int) (sort_mode : String) (date_from date_to : Option String)
    (shuffle : List Item → List Item) : Except CrErr BuildResult :=
  let lookup := cand_lookup cr_candidates
  match build_loop net lookup cr_selected sample_n sort_mode date_from date_to shuffle
          original_rows with
  | .error e => .error e
  | .ok (rs, es, fs) =>
      .ok { rows := rs,
            entries := ZipEntry.summaryJson sample_n sort_mode date_from date_to
                        :: es ++ [ZipEntry.serversCsv rs],
            fetches := fs }

/-- Model of the input de-duplication loop (`seen_names`): keep the first row
for each non-empty `server_name`. -/
def dedup_rows_loop (seen : List String) : List InputRow → List InputRow
  | [] => []
  | r :: rest =>
      if r.server_name ≠ "" ∧ r.server_name ∉ seen then
        r :: dedup_rows_loop (r.server_name :: seen) rest
      else
        dedup_rows_loop seen rest

/-- Model of the `dedup_rows` block that produces the final `input_rows`. -/
def dedup_rows (rows : List InputRow) : List InputRow :=
  dedup_rows_loop [] rows

/-- Model of the `Resolve` button loop: resolve each server in order, with a
per-server `try/except` converting a resolution failure into an empty
candidate list for that server only. -/
def resolve_all_servers (net : CrNet) (rows : List InputRow) (per_title : Nat) :
    List (String × List Candidate) :=
  rows.map fun row =>
    (row.server_name,
      match resolve_candidates_for_server net row per_title with
      | .ok cs => cs
      | .error _ => [])

/-- The seen-key set after folding `add_cand` over a candidate list. -/
def dedupSeen (seen : List (String × String)) : List Candidate → List (String × String)
  | [] => seen
  | c :: rest =>
      if candKey c ∈ seen then dedupSeen seen rest
      else dedupSeen (candKey c :: seen) rest

/-- A network on which every endpoint fails, the works total-count queries
with HTTP 503 and everything else with HTTP 500. -/
def failNet : CrNet where
  journals := fun _ => .error (.httpStatus 500)
  worksTotal := fun _ => .error (.httpStatus 503)
  members := fun _ => .error (.httpStatus 500)
  journalsQuery := fun _ => .error (.httpStatus 500)
  containerTitleTotal := fun _ => .error (.httpStatus 500)
  worksItems := fun _ => .error (.httpStatus 500)

/-- A network on which the works total-count queries succeed (total 7) while
every metadata / search / sampling endpoint fails. -/
def metaFailNet : CrNet where
  journals := fun _ => .error (.httpStatus 500)
  worksTotal := fun _ => .ok 7
  members := fun _ => .error (.httpStatus 500)
  journalsQuery := fun _ => .error (.httpStatus 500)
  containerTitleTotal := fun _ => .error (.httpStatus 500)
  worksItems := fun _ => .error (.httpStatus 500)

/-- An input row whose only identifier is one DOI prefix (no name, so no
title lookup happens): resolving it performs exactly one sub-lookup. -/
def prefOnlyRow : InputRow := ⟨"", "", "", "", "10.1101", "", "", "", ""⟩

/-- An input row with an ISSN, a DOI prefix and a member id. -/
def demoRow : InputRow := ⟨"bioRxiv", "1234-5678", "", "", "10.1101", "42", "", "", ""⟩

/-- Two plain named input rows (identifiers empty). -/
def rowA : InputRow := ⟨"A", "", "", "", "", "", "", "", ""⟩

/-- Second plain named input row. -/
def rowB : InputRow := ⟨"B", "", "", "", "", "", "", "", ""⟩

/-- A candidate with a positive estimated total, as stored for server `A`. -/
def candA : Candidate :=
  { strategy := "prefix", id := "10.1", label := "DOI prefix 10.1", estimate_total := 5 }

/-- A selection mapping choosing `candA` for server `A` and nothing else. -/
def selAB : String → List (String × String) :=
  fun n => if n = "A" then [("prefix", "10.1")] else []

/-- A network on which the sampling endpoint returns three fixed items and
every other endpoint fails. -/
def itemNet : CrNet where
  journals := fun _ => .error (.httpStatus 500)
  worksTotal := fun _ => .error (.httpStatus 500)
  members := fun _ => .error (.httpStatus 500)
  journalsQuery := fun _ => .error (.httpStatus 500)
  containerTitleTotal := fun _ => .error (.httpStatus 500)
  worksItems := fun _ => .ok [⟨1⟩, ⟨2⟩, ⟨3⟩]

/-- The summary rows of the export of `[rowA, rowB]` under `selAB` with
`sample_n = 0`. -/
def demoBuildRows : List SummaryRow :=
  [{ server_name := "A", presence_in_crossref := "yes", matched_strategy := "prefix",
     matched_ids := "10.1", total_results_estimate := 5, sample_count_saved := 0, notes := "" },
   { server_name := "B", presence_in_crossref := "no", matched_strategy := "",
     matched_ids := "", total_results_estimate := 0, sample_count_saved := 0, notes := "" }]

/-- The full build result of that export. -/
def demoBuildRes : BuildResult :=
  { rows := demoBuildRows,
    entries := [.summaryJson 0 "latest" none none, .serversCsv demoBuildRows],
    fetches := [] }

/-! Lemmas about the `api_get` retry loop. -/

theorem transient_ne200_raises {s : Nat} (h : transientStatus s = true) :
    s ≠ 200 ∧ raisesForStatus s = true := by
  simp only [transientStatus, Bool.or_eq_true, beq_iff_eq] at h
  rcases h with (((h | h) | h) | h) | h <;> subst h <;> exact ⟨by decide, by decide⟩

theorem api_get_loop_succ_eq {β : Type} (attempts : Nat → HResp β) (sleep_s : ℚ)
    (k fuel : Nat) (b : ℚ) (last : Option (HResp β)) :
    api_get_loop attempts sleep_s k (fuel + 1) b last =
      (if (attempts k).status = 200 then
        ⟨.ok (attempts k), 1, if 0 < sleep_s then [sleep_s] else []⟩
      else if transientStatus (attempts k).status then
        ⟨(api_get_loop attempts sleep_s (k + 1) fuel (b * (8 / 5)) (some (attempts k))).result,
         (api_get_loop attempts sleep_s (k + 1) fuel (b * (8 / 5)) (some (attempts k))).gets + 1,
         b :: (api_get_loop attempts sleep_s (k + 1) fuel (b * (8 / 5)) (some (attempts k))).sleeps⟩
      else if raisesForStatus (attempts k).status then
        ⟨.error (.httpStatus (attempts k).status), 1, []⟩
      else
        ⟨(api_get_loop attempts sleep_s (k + 1) fuel b (some (attempts k))).result,
         (api_get_loop attempts sleep_s (k + 1) fuel b (some (attempts k))).gets + 1,
         (api_get_loop attempts sleep_s (k + 1) fuel b (some (attempts k))).sleeps⟩) := rfl

theorem geom_backoff_cons (b : ℚ) (n : Nat) :
    b :: List.map (fun i => b * (8 / 5) * (8 / 5) ^ i) (List.range n)
      = List.map (fun i => b * (8 / 5) ^ i) (List.range (n + 1)) := by
  conv_rhs => rw [List.range_succ_eq_map]
  rw [List.map_cons, List.map_map]
  refine congrArg₂ _ ?_ ?_
  · simp
  · refine List.map_congr_left fun i _ => ?_
    simp only [Function.comp]
    rw [pow_succ, mul_assoc, mul_comm ((8 : ℚ) / 5)]

theorem api_get_loop_transient {β : Type} (attempts : Nat → HResp β) (sleep_s : ℚ) :
    ∀ (fuel k : Nat) (b : ℚ) (last : Option (HResp β)), 1 ≤ fuel →
      (∀ i < fuel, transientStatus (attempts (k + i)).status = true) →
      api_get_loop attempts sleep_s k fuel b last =
        ⟨.error (.httpStatus (attempts (k + (fuel - 1))).status), fuel,
         (List.range fuel).map fun i => b * (8 / 5) ^ i⟩ := by
  intro fuel
  induction fuel with
  | zero => intro k b last h; omega
  | succ f ih =>
      intro k b last _ h
      have ht := h 0 (by omega)
      simp only [Nat.add_zero] at ht
      obtain ⟨hne, hraise⟩ := transient_ne200_raises ht
      rw [api_get_loop_succ_eq, if_neg hne, if_pos ht]
      cases f with
      | zero =>
          simp only [api_get_loop, if_pos hraise]
          simp [List.range_succ]
      | succ g =>
          have hrest := ih (k + 1) (b * (8 / 5)) (some (attempts k)) (by omega)
            (fun i hi => by
              have := h (i + 1) (by omega)
              simpa [Nat.add_assoc, Nat.add_comm 1 i] using this)
          rw [show k + 1 + (g + 1 - 1) = k + (g + 1 + 1 - 1) from by omega] at hrest
          rw [hrest]
          congr 1
          exact geom_backoff_cons b (g + 1)

theorem api_get_loop_first200 {β : Type} (attempts : Nat → HResp β) (sleep_s : ℚ)
    (k fuel : Nat) (b : ℚ) (last : Option (HResp β)) (hf : 1 ≤ fuel)
    (h200 : (attempts k).status = 200) :
    api_get_loop attempts sleep_s k fuel b last =
      ⟨.ok (attempts k), 1, if 0 < sleep_s then [sleep_s] else []⟩ := by
  cases fuel with
  | zero => omega
  | succ f => rw [api_get_loop_succ_eq, if_pos h200]

theorem api_get_loop_permanent {β : Type} (attempts : Nat → HResp β) (sleep_s : ℚ)
    (k fuel : Nat) (b : ℚ) (last : Option (HResp β)) (hf : 1 ≤ fuel)
    (hne : (attempts k).status ≠ 200)
    (hnt : transientStatus (attempts k).status = false)
    (hraise : raisesForStatus (attempts k).status = true) :
    api_get_loop attempts sleep_s k fuel b last =
      ⟨.error (.httpStatus (attempts k).status), 1, []⟩ := by
  cases fuel with
  | zero => omega
  | succ f =>
      rw [api_get_loop_succ_eq, if_neg hne, if_neg (by simp [hnt]), if_pos hraise]

/-- An invariant of the retry loop: once at least one iteration remains (or a
response has already been bound to `r`), the loop never raises the
`NameError`; any returned response has status `200` or a status on which
`raise_for_status` does not raise, and a returned non-`200` response means
the whole remaining budget was consumed. -/
theorem api_get_loop_no_nameError {β : Type} (attempts : Nat → HResp β) (sleep_s : ℚ) :
    ∀ (fuel k : Nat) (b : ℚ) (last : Option (HResp β)),
      (1 ≤ fuel ∨ last ≠ none) →
      (api_get_loop attempts sleep_s k fuel b last).result ≠ .error .nameError
      ∧ (∀ r, (api_get_loop attempts sleep_s k fuel b last).result = .ok r →
          (r.status = 200 ∨ raisesForStatus r.status = false)
          ∧ (r.status ≠ 200 → (api_get_loop attempts sleep_s k fuel b last).gets = fuel)) := by
  intro fuel
  induction fuel with
  | zero =>
      intro k b last hor
      match last, hor with
      | some r, _ =>
          by_cases hr : raisesForStatus r.status = true
          · simp only [api_get_loop, if_pos hr]
            exact ⟨by simp, by simp⟩
          · simp only [api_get_loop, if_neg hr]
            refine ⟨by simp, fun s hs => ?_⟩
            simp only [Except.ok.injEq] at hs
            subst hs
            exact ⟨Or.inr (by simpa using hr), by simp⟩
  | succ f ih =>
      intro k b last _
      rw [api_get_loop_succ_eq]
      by_cases h200 : (attempts k).status = 200
      · rw [if_pos h200]
        refine ⟨by simp, fun r hr => ?_⟩
        simp only [Except.ok.injEq] at hr
        subst hr
        exact ⟨Or.inl h200, fun hc => absurd h200 hc⟩
      · rw [if_neg h200]
        by_cases htr : transientStatus (attempts k).status = true
        · rw [if_pos htr]
          have hrec := ih (k + 1) (b * (8 / 5)) (some (attempts k)) (Or.inr (by simp))
          refine ⟨hrec.1, fun r hr => ?_⟩
          refine ⟨(hrec.2 r hr).1, fun hc => ?_⟩
          have := (hrec.2 r hr).2 hc
          simp [this]
        · rw [if_neg htr]
          by_cases hraise : raisesForStatus (attempts k).status = true
          · rw [if_pos hraise]
            exact ⟨by simp, by simp⟩
          · rw [if_neg hraise]
            have hrec := ih (k + 1) b (some (attempts k)) (Or.inr (by simp))
            refine ⟨hrec.1, fun r hr => ?_⟩
            refine ⟨(hrec.2 r hr).1, fun hc => ?_⟩
            have := (hrec.2 r hr).2 hc
            simp [this]

/-- Counterexample to C7: a 501 response is a 5xx server error, yet
`api_get` does not retry it — with a budget of 5 retries it is surfaced as
an HTTP error after exactly one request, with no backoff sleep, because the
retry set is the literal tuple `(429, 500, 502, 503, 504)` and 501 falls
through to `raise_for_status` on the first attempt. -/
theorem C7_counterexample :
    api_get (fun _ => (⟨501, 0⟩ : HResp Nat)) 0 5 = ⟨.error (.httpStatus 501), 1, []⟩
    ∧ (500 ≤ 501 ∧ 501 < 600) ∧ transientStatus 501 = false :=
  ⟨rfl, by decide, rfl⟩

/-- C7 (amended): the statuses retried are exactly 429, 500, 502, 503 and
504; a response with one of those statuses on every attempt is retried with
exponentially growing backoff (`sleep_s * (8/5)^i` before the i-th retry) up
to the `max_retries` budget and then surfaced as an HTTP error; a response
with any other error status — any 4xx other than 429, but also a 5xx outside
the retry tuple such as 501 — is surfaced immediately on the first attempt
with no retry and no sleep; a 200 response is returned after one request,
followed by the configured inter-call delay (when positive). -/
theorem C7_api_get_retry_taxonomy (attempts : Nat → HResp Nat) (sleep_s : ℚ)
    (max_retries : Int) (hmr : 1 ≤ max_retries) :
    (∀ s, transientStatus s = true ↔
      (s = 429 ∨ s = 500 ∨ s = 502 ∨ s = 503 ∨ s = 504))
    ∧ ((attempts 0).status = 200 →
      api_get attempts sleep_s max_retries =
        ⟨.ok (attempts 0), 1, if 0 < sleep_s then [sleep_s] else []⟩)
    ∧ (transientStatus (attempts 0).status = false → (attempts 0).status ≠ 200 →
      raisesForStatus (attempts 0).status = true →
      api_get attempts sleep_s max_retries =
        ⟨.error (.httpStatus (attempts 0).status), 1, []⟩)
    ∧ ((∀ i < max_retries.toNat, transientStatus (attempts i).status = true) →
      api_get attempts sleep_s max_retries =
        ⟨.error (.httpStatus (attempts (max_retries.toNat - 1)).status), max_retries.toNat,
         (List.range max_retries.toNat).map fun i => sleep_s * (8 / 5) ^ i⟩) := by
  have hfuel : 1 ≤ max_retries.toNat := by omega
  refine ⟨?_, ?_, ?_, ?_⟩
  · intro s
    simp only [transientStatus, Bool.or_eq_true, beq_iff_eq]
    tauto
  · intro h200
    exact api_get_loop_first200 attempts sleep_s 0 max_retries.toNat sleep_s none hfuel h200
  · intro hnt hne hraise
    exact api_get_loop_permanent attempts sleep_s 0 max_retries.toNat sleep_s none hfuel
      hne hnt hraise
  · intro htr
    have h := api_get_loop_transient attempts sleep_s max_retries.toNat 0 sleep_s none hfuel
      (fun i hi => by simpa using htr i hi)
    simpa using h

/-- Witness for C7 (amended): concrete response streams exercising each
branch with `sleep_s = 0` and `max_retries = 5`, including the
immediately-surfaced 404 and 501 cases. -/
theorem C7_api_get_retry_taxonomy_witness :
    (transientStatus 501 = true ↔
      ((501 : Nat) = 429 ∨ (501 : Nat) = 500 ∨ (501 : Nat) = 502
        ∨ (501 : Nat) = 503 ∨ (501 : Nat) = 504))
    ∧ (api_get (fun _ => (⟨200, 0⟩ : HResp Nat)) 0 5 =
      ⟨.ok ⟨200, 0⟩, 1, if (0 : ℚ) < 0 then [0] else []⟩)
    ∧ (api_get (fun _ => (⟨404, 0⟩ : HResp Nat)) 0 5 =
      ⟨.error (.httpStatus 404), 1, []⟩)
    ∧ (api_get (fun _ => (⟨501, 0⟩ : HResp Nat)) 0 5 =
      ⟨.error (.httpStatus 501), 1, []⟩)
    ∧ (api_get (fun _ => (⟨503, 0⟩ : HResp Nat)) 0 5 =
      ⟨.error (.httpStatus 503), (5 : Int).toNat,
       (List.range (5 : Int).toNat).map fun i => (0 : ℚ) * (8 / 5) ^ i⟩) :=
  ⟨(C7_api_get_retry_taxonomy (fun _ => ⟨501, 0⟩) 0 5 (by decide)).1 501,
   (C7_api_get_retry_taxonomy (fun _ => ⟨200, 0⟩) 0 5 (by decide)).2.1 rfl,
   (C7_api_get_retry_taxonomy (fun _ => ⟨404, 0⟩) 0 5 (by decide)).2.2.1
      rfl (by decide) rfl,
   (C7_api_get_retry_taxonomy (fun _ => ⟨501, 0⟩) 0 5 (by decide)).2.2.1
      rfl (by decide) rfl,
   (C7_api_get_retry_taxonomy (fun _ => ⟨503, 0⟩) 0 5 (by decide)).2.2.2
      (fun i _ => rfl)⟩

/-- Counterexample to C9: with `max_retries = 1` and a stream of `204 No
Content` responses, `api_get` returns a non-200 response instead of
"returning a 200 response or raising": `raise_for_status` does not raise on
a 2xx status, so after the budget is exhausted the last response is returned
as-is. -/
theorem C9_counterexample :
    (api_get (fun _ => (⟨204, 0⟩ : HResp Nat)) 0 1).result = .ok ⟨204, 0⟩
    ∧ (204 : Nat) ≠ 200 :=
  ⟨rfl, by decide⟩

/-- C9 (amended): `api_get` with `max_retries ≤ 0` never runs the loop body
and fails with the unbound-variable (`NameError`) failure after issuing no
request; with `max_retries ≥ 1` the `NameError` is impossible, and every
returned response either has status 200 or has a status on which
`raise_for_status` does not raise (a non-error non-200 status), the latter
only once the whole retry budget has been consumed. -/
theorem C9_api_get_retry_precondition (attempts : Nat → HResp Nat) (sleep_s : ℚ)
    (max_retries : Int) :
    (max_retries ≤ 0 →
      api_get attempts sleep_s max_retries = ⟨.error .nameError, 0, []⟩)
    ∧ (1 ≤ max_retries →
      (api_get attempts sleep_s max_retries).result ≠ .error .nameError
      ∧ ∀ r, (api_get attempts sleep_s max_retries).result = .ok r →
          (r.status = 200 ∨ raisesForStatus r.status = false)
          ∧ (r.status ≠ 200 →
              (api_get attempts sleep_s max_retries).gets = max_retries.toNat)) := by
  constructor
  · intro hle
    have h0 : max_retries.toNat = 0 := by omega
    simp only [api_get, h0, api_get_loop]
  · intro hge
    have h := api_get_loop_no_nameError attempts sleep_s max_retries.toNat 0 sleep_s none
      (Or.inl (by omega))
    exact ⟨h.1, fun r hr => (h.2 r hr).1.imp_right id |>.elim
      (fun h200 => ⟨Or.inl h200, fun hc => absurd h200 hc⟩)
      (fun hnr => ⟨Or.inr hnr, fun hc => (h.2 r hr).2 hc⟩)⟩

/-- Witness for C9 (amended): the 204-response stream at `max_retries = 0`
and `max_retries = 1`. -/
theorem C9_api_get_retry_precondition_witness :
    (api_get (fun _ => (⟨204, 0⟩ : HResp Nat)) 0 0 = ⟨.error .nameError, 0, []⟩)
    ∧ (api_get (fun _ => (⟨204, 0⟩ : HResp Nat)) 0 1).result ≠ .error .nameError
    ∧ (((⟨204, 0⟩ : HResp Nat).status = 200 ∨ raisesForStatus (⟨204, 0⟩ : HResp Nat).status = false)
       ∧ ((⟨204, 0⟩ : HResp Nat).status ≠ 200 →
          (api_get (fun _ => (⟨204, 0⟩ : HResp Nat)) 0 1).gets = (1 : Int).toNat)) :=
  ⟨(C9_api_get_retry_precondition (fun _ => ⟨204, 0⟩) 0 0).1 (by decide),
   ((C9_api_get_retry_precondition (fun _ => ⟨204, 0⟩) 0 1).2 (by decide)).1,
   ((C9_api_get_retry_precondition (fun _ => ⟨204, 0⟩) 0 1).2 (by decide)).2 ⟨204, 0⟩ rfl⟩

/-! Lemmas about the resolver's deduplicating accumulation. -/

theorem runStream_eq_collect {σ : Type} (step : σ → Candidate → σ) :
    ∀ (es : List (Except CrErr (List Candidate))) (init : σ),
      runStream step init es = (collectStream es).map fun l => l.foldl step init := by
  intro es
  induction es with
  | nil => intro init; rfl
  | cons e rest ih =>
      intro init
      cases e with
      | error err => rfl
      | ok cs =>
          have h1 : runStream step init (Except.ok cs :: rest)
              = runStream step (cs.foldl step init) rest := rfl
          rw [h1, ih]
          cases hc : collectStream rest with
          | error err =>
              have h2 : collectStream (Except.ok cs :: rest) = .error err := by
                simp only [collectStream, hc]
              rw [h2]
              simp [Except.map]
          | ok l =>
              have h2 : collectStream (Except.ok cs :: rest) = .ok (cs ++ l) := by
                simp only [collectStream, hc]
              rw [h2]
              simp [Except.map, List.foldl_append]

theorem foldl_add_cand :
    ∀ (l : List Candidate) (st : DState),
      l.foldl add_cand st = ⟨dedupSeen st.seen l, st.cands ++ dedupFirst st.seen l⟩ := by
  intro l
  induction l with
  | nil => intro st; simp [dedupSeen, dedupFirst]
  | cons c rest ih =>
      intro st
      by_cases hm : candKey c ∈ st.seen
      · have ha : add_cand st c = st := by simp [add_cand, hm]
        calc (c :: rest).foldl add_cand st = rest.foldl add_cand st := by rw [List.foldl_cons, ha]
          _ = ⟨dedupSeen st.seen rest, st.cands ++ dedupFirst st.seen rest⟩ := ih st
          _ = ⟨dedupSeen st.seen (c :: rest), st.cands ++ dedupFirst st.seen (c :: rest)⟩ := by
              simp [dedupSeen, dedupFirst, hm]
      · have ha : add_cand st c = ⟨candKey c :: st.seen, st.cands ++ [c]⟩ := by
          simp [add_cand, hm]
        calc (c :: rest).foldl add_cand st
            = rest.foldl add_cand ⟨candKey c :: st.seen, st.cands ++ [c]⟩ := by
              rw [List.foldl_cons, ha]
          _ = ⟨dedupSeen (candKey c :: st.seen) rest,
               (st.cands ++ [c]) ++ dedupFirst (candKey c :: st.seen) rest⟩ := ih _
          _ = ⟨dedupSeen st.seen (c :: rest), st.cands ++ dedupFirst st.seen (c :: rest)⟩ := by
              simp [dedupSeen, dedupFirst, hm]

theorem resolve_eq_dedup_raw (net : CrNet) (row : InputRow) (pt : Nat) :
    resolve_candidates_for_server net row pt
      = (resolve_candidates_raw net row pt).map fun l => dedupFirst [] l := by
  unfold resolve_candidates_for_server resolve_candidates_raw
  rw [runStream_eq_collect]
  cases hc : collectStream (productionStream net row pt) with
  | error e => rfl
  | ok l =>
      simp [Except.map, foldl_add_cand]

theorem dedupFirst_sublist :
    ∀ (l : List Candidate) (seen : List (String × String)), (dedupFirst seen l).Sublist l := by
  intro l
  induction l with
  | nil => intro seen; simp [dedupFirst]
  | cons c rest ih =>
      intro seen
      by_cases hm : candKey c ∈ seen
      · simpa [dedupFirst, hm] using (ih seen).cons c
      · simpa [dedupFirst, hm] using (ih (candKey c :: seen)).cons₂ c

theorem dedupFirst_filter (k : String × String) :
    ∀ (l : List Candidate) (seen : List (String × String)),
      (dedupFirst seen l).filter (fun c => candKey c == k)
        = if k ∈ seen then [] else ((l.filter fun c => candKey c == k).take 1) := by
  intro l
  induction l with
  | nil => intro seen; by_cases hs : k ∈ seen <;> simp [dedupFirst, hs]
  | cons c rest ih =>
      intro seen
      by_cases hm : candKey c ∈ seen
      · rw [show dedupFirst seen (c :: rest) = dedupFirst seen rest from by simp [dedupFirst, hm],
            ih seen]
        by_cases hkc : candKey c = k
        · have hks : k ∈ seen := hkc ▸ hm
          simp [hks]
        · have hf : (c :: rest).filter (fun c => candKey c == k)
              = rest.filter (fun c => candKey c == k) := by
            simp [List.filter_cons, beq_eq_false_iff_ne.mpr hkc]
          rw [hf]
      · rw [show dedupFirst seen (c :: rest) = c :: dedupFirst (candKey c :: seen) rest from by
            simp [dedupFirst, hm]]
        by_cases hkc : candKey c = k
        · have hks : k ∉ seen := hkc ▸ hm
          rw [List.filter_cons_of_pos (by simpa using hkc), ih (candKey c :: seen)]
          rw [if_pos (by simp [hkc])]
          rw [if_neg hks, List.filter_cons_of_pos (by simpa using hkc)]
          simp
        · rw [List.filter_cons_of_neg (by simpa using hkc), ih (candKey c :: seen)]
          have hmem : (k ∈ candKey c :: seen) ↔ k ∈ seen := by
            constructor
            · intro h
              rcases List.mem_cons.mp h with h | h
              · exact absurd h.symm hkc
              · exact h
            · intro h; exact List.mem_cons_of_mem _ h
          rw [List.filter_cons_of_neg (by simpa using hkc)]
          by_cases hks : k ∈ seen
          · rw [if_pos (hmem.mpr hks), if_pos hks]
          · rw [if_neg (fun h => hks (hmem.mp h)), if_neg hks]

theorem dedupFirst_nodup :
    ∀ (l : List Candidate) (seen : List (String × String)),
      ((dedupFirst seen l).map candKey).Nodup
      ∧ ∀ p ∈ (dedupFirst seen l).map candKey, p ∉ seen := by
  intro l
  induction l with
  | nil => intro seen; simp [dedupFirst]
  | cons c rest ih =>
      intro seen
      by_cases hm : candKey c ∈ seen
      · simpa [dedupFirst, hm] using ih seen
      · rw [show dedupFirst seen (c :: rest) = c :: dedupFirst (candKey c :: seen) rest from by
            simp [dedupFirst, hm]]
        obtain ⟨hnd, hout⟩ := ih (candKey c :: seen)
        refine ⟨?_, ?_⟩
        · rw [List.map_cons, List.nodup_cons]
          exact ⟨fun hin => (hout _ hin) (List.mem_cons_self _ _), hnd⟩
        · intro p hp
          rcases List.mem_cons.mp hp with h | h
          · exact h ▸ hm
          · exact fun hs => (hout p h) (List.mem_cons_of_mem _ hs)

theorem runStream_all_ok {σ : Type} (step : σ → Candidate → σ) :
    ∀ (es : List (Except CrErr (List Candidate))) (init : σ),
      (∀ e ∈ es, ∃ cs, e = .ok cs) → ∃ s, runStream step init es = .ok s := by
  intro es
  induction es with
  | nil => intro init _; exact ⟨init, rfl⟩
  | cons e rest ih =>
      intro init hall
      obtain ⟨cs, rfl⟩ := hall e (List.mem_cons_self _ _)
      exact ih (cs.foldl step init) fun x hx => hall x (List.mem_cons_of_mem _ hx)

theorem resolve_by_issn_ok (net : CrNet) (issn : String)
    (hw : ∀ fs, ∃ t, net.worksTotal fs = .ok t) :
    ∃ oc, resolve_by_issn net issn = .ok oc := by
  unfold resolve_by_issn
  cases hj : net.journals issn with
  | error e => exact ⟨none, rfl⟩
  | ok j =>
      obtain ⟨t, ht⟩ := hw ["issn:" ++ issn, "type:posted-content"]
      rw [ht]
      exact ⟨_, rfl⟩

theorem resolve_by_pref_ok (net : CrNet) (p : String)
    (hw : ∀ fs, ∃ t, net.worksTotal fs = .ok t) :
    ∃ oc, resolve_by_pref net p = .ok oc := by
  unfold resolve_by_pref
  obtain ⟨t, ht⟩ := hw ["prefix:" ++ p, "type:posted-content"]
  rw [ht]
  exact ⟨_, rfl⟩

theorem resolve_by_member_ok (net : CrNet) (m : String)
    (hw : ∀ fs, ∃ t, net.worksTotal fs = .ok t) :
    ∃ oc, resolve_by_member net m = .ok oc := by
  unfold resolve_by_member
  obtain ⟨t, ht⟩ := hw ["member:" ++ m, "type:posted-content"]
  rw [ht]
  exact ⟨_, rfl⟩

theorem production_all_ok (net : CrNet) (row : InputRow) (pt : Nat)
    (hw : ∀ fs, ∃ t, net.worksTotal fs = .ok t) :
    ∀ e ∈ productionStream net row pt, ∃ cs, e = .ok cs := by
  intro e he
  simp only [productionStream, List.mem_append, List.mem_map] at he
  rcases he with ((((⟨i, _, rfl⟩ | ⟨p, _, rfl⟩) | hm) | ht) | ⟨tv, _, rfl⟩)
  · obtain ⟨oc, h⟩ := resolve_by_issn_ok net i hw
    rw [h]
    exact ⟨_, rfl⟩
  · obtain ⟨oc, h⟩ := resolve_by_pref_ok net p hw
    rw [h]
    exact ⟨_, rfl⟩
  · by_cases hc : norm row.crossref_member_id ≠ ""
    · rw [if_pos hc] at hm
      rcases List.mem_singleton.mp hm with rfl
      obtain ⟨oc, h⟩ := resolve_by_member_ok net (norm row.crossref_member_id) hw
      rw [h]
      exact ⟨_, rfl⟩
    · rw [if_neg hc] at hm
      exact absurd hm (List.not_mem_nil _)
  · by_cases hc : (if norm row.title_exact ≠ "" then norm row.title_exact
        else norm row.server_name) ≠ ""
    · rw [if_pos hc] at ht
      rcases List.mem_singleton.mp ht with rfl
      exact ⟨_, rfl⟩
    · rw [if_neg hc] at ht
      exact absurd ht (List.not_mem_nil _)
  · exact ⟨_, rfl⟩

/-- Counterexample to C1: resolving a server whose only identifier is one
DOI prefix, on a network where the single sub-lookup (`cr_total_from_works`
for that prefix) raises HTTP 503, makes
`resolve_candidates_for_server` itself raise instead of returning the
(empty) accumulated candidate list: `resolve_by_prefix` has no `try` around
its total-count query. -/
theorem C1_counterexample :
    resolve_candidates_for_server failNet prefOnlyRow 2 = .error (.httpStatus 503) := rfl

/-- C1 (amended): the metadata and search sub-lookups (journal-by-ISSN,
member, journal search and container-title search) are swallowed — whenever
the works total-count queries succeed, `resolve_candidates_for_server`
returns normally no matter how those other sub-lookups fail.  A failure of a
works total-count sub-lookup in the ISSN, prefix or member strategy, however,
propagates (see the counterexample). -/
theorem C1_metadata_failures_swallowed (net : CrNet) (row : InputRow) (pt : Nat)
    (hw : ∀ fs, ∃ t, net.worksTotal fs = .ok t) :
    ∃ cs, resolve_candidates_for_server net row pt = .ok cs := by
  unfold resolve_candidates_for_server
  obtain ⟨s, hs⟩ := runStream_all_ok add_cand (productionStream net row pt) ⟨[], []⟩
    (production_all_ok net row pt hw)
  exact ⟨s.cands, by rw [hs]; rfl⟩

/-- Witness for C1 (amended): on `metaFailNet` every metadata endpoint
fails, yet resolution of `demoRow` succeeds. -/
theorem C1_metadata_failures_swallowed_witness :
    ∃ cs, resolve_candidates_for_server metaFailNet demoRow 2 = .ok cs :=
  C1_metadata_failures_swallowed metaFailNet demoRow 2 fun _ => ⟨7, rfl⟩

/-- Counterexample to C2: a persistent sampling failure for the first
server's selected candidate makes the whole export raise (there is no
per-unit `try` inside `build_zip_crossref`), so the second server is never
processed and no summary table is produced. -/
theorem C2_counterexample :
    build_zip_crossref failNet selAB [[candA]] [rowA, rowB] 1 "latest" none none id
      = .error (.httpStatus 500) := rfl

/-- C2 (amended): during resolution, a persistent failure in one server's
candidate resolution is caught by the per-server handler and converted into
an empty candidate list for that server only, while every other server's
entry is untouched.  During export there is no per-unit handler: a sampling
failure for any selected candidate propagates out of `build_zip_crossref`
and aborts the whole build. -/
theorem C2_batch_isolation :
    (∀ (net : CrNet) (rows : List InputRow) (pt : Nat),
      (resolve_all_servers net rows pt).length = rows.length
      ∧ ∀ i row, rows.get? i = some row →
          (∀ e, resolve_candidates_for_server net row pt = .error e →
            (resolve_all_servers net rows pt).get? i = some (row.server_name, []))
          ∧ (∀ cs, resolve_candidates_for_server net row pt = .ok cs →
            (resolve_all_servers net rows pt).get? i = some (row.server_name, cs)))
    ∧ (∀ (net : CrNet) (cr_selected : String → List (String × String))
        (cr_candidates : List (List Candidate)) (row : InputRow) (rest : List InputRow)
        (sample_n : Int) (sort_mode : String) (df dt : Option String)
        (shuffle : List Item → List Item) (e : CrErr),
        cr_selected row.server_name ≠ [] →
        export_pairs net (cand_lookup cr_candidates) (to_slug row.server_name) row.server_name
          sample_n sort_mode df dt shuffle (cr_selected row.server_name) ExportAcc.init
          = .error e →
        build_zip_crossref net cr_selected cr_candidates (row :: rest) sample_n sort_mode df dt
          shuffle = .error e) := by
  constructor
  · intro net rows pt
    refine ⟨by simp [resolve_all_servers], ?_⟩
    intro i row hrow
    have hg : (resolve_all_servers net rows pt).get? i
        = some (row.server_name, match resolve_candidates_for_server net row pt with
                 | .ok cs => cs
                 | .error _ => []) := by
      unfold resolve_all_servers
      rw [List.get?_map, hrow]
      rfl
    constructor
    · intro e he
      rw [hg, he]
    · intro cs hcs
      rw [hg, hcs]
  · intro net cr_selected cr_candidates row rest sample_n sort_mode df dt shuffle e hne hexp
    have hbl : build_loop net (cand_lookup cr_candidates) cr_selected sample_n sort_mode df dt
        shuffle (row :: rest) = .error e := by
      simp only [build_loop]
      rw [if_neg hne, hexp]
    simp only [build_zip_crossref, hbl]

/-- Witness for C2 (amended): the failing and succeeding resolution cases on
singleton batches, and the concrete aborted export. -/
theorem C2_batch_isolation_witness :
    (resolve_all_servers failNet [prefOnlyRow] 2).get? 0 = some (prefOnlyRow.server_name, [])
    ∧ (resolve_all_servers metaFailNet [demoRow] 2).get? 0
        = some (demoRow.server_name,
            [{ strategy := "prefix", id := "10.1101", label := "DOI prefix 10.1101",
               estimate_total := 7 },
             { strategy := "member", id := "42", label := "Member 42", estimate_total := 7 }])
    ∧ build_zip_crossref failNet selAB [[candA]] [rowA, rowB] 1 "latest" none none id
        = .error (.httpStatus 500) :=
  ⟨((C2_batch_isolation.1 failNet [prefOnlyRow] 2).2 0 prefOnlyRow rfl).1
      (.httpStatus 503) rfl,
   ((C2_batch_isolation.1 metaFailNet [demoRow] 2).2 0 demoRow rfl).2
      [{ strategy := "prefix", id := "10.1101", label := "DOI prefix 10.1101",
         estimate_total := 7 },
       { strategy := "member", id := "42", label := "Member 42", estimate_total := 7 }] rfl,
   C2_batch_isolation.2 failNet selAB [[candA]] rowA [rowB] 1 "latest" none none id
      (.httpStatus 500) (by decide) rfl⟩

/-- C4: the candidate list returned by `resolve_candidates_for_server` is
deduplicated by `(strategy, id)`: it is a subsequence of the raw produced
sequence, its keys are pairwise distinct, and for every key the kept
candidate is exactly the first one produced with that key. -/
theorem C4_resolver_dedup_by_key (net : CrNet) (row : InputRow) (pt : Nat)
    (cs : List Candidate)
    (h : resolve_candidates_for_server net row pt = .ok cs) :
    ∃ raw, resolve_candidates_raw net row pt = .ok raw
      ∧ cs.Sublist raw
      ∧ (cs.map candKey).Nodup
      ∧ ∀ k, cs.filter (fun c => candKey c == k)
          = (raw.filter fun c => candKey c == k).take 1 := by
  rw [resolve_eq_dedup_raw] at h
  cases hr : resolve_candidates_raw net row pt with
  | error e =>
      rw [hr] at h
      exact absurd h (by simp [Except.map])
  | ok raw =>
      rw [hr] at h
      simp only [Except.map, Except.ok.injEq] at h
      subst h
      refine ⟨raw, rfl, dedupFirst_sublist raw [], (dedupFirst_nodup raw []).1, fun k => ?_⟩
      rw [dedupFirst_filter k raw []]
      simp

/-- Witness for C4: concrete resolution of `demoRow` on `metaFailNet`. -/
theorem C4_resolver_dedup_by_key_witness :
    ∃ raw, resolve_candidates_raw metaFailNet demoRow 2 = .ok raw
      ∧ List.Sublist
          [{ strategy := "prefix", id := "10.1101", label := "DOI prefix 10.1101",
             estimate_total := 7 },
           { strategy := "member", id := "42", label := "Member 42", estimate_total := 7 }] raw
      ∧ (List.map candKey
          [{ strategy := "prefix", id := "10.1101", label := "DOI prefix 10.1101",
             estimate_total := 7 },
           { strategy := "member", id := "42", label := "Member 42", estimate_total := 7 }]).Nodup
      ∧ ∀ k, List.filter (fun c => candKey c == k)
            [{ strategy := "prefix", id := "10.1101", label := "DOI prefix 10.1101",
               estimate_total := 7 },
             { strategy := "member", id := "42", label := "Member 42", estimate_total := 7 }]
          = (raw.filter fun c => candKey c == k).take 1 :=
  C4_resolver_dedup_by_key metaFailNet demoRow 2
    [{ strategy := "prefix", id := "10.1101", label := "DOI prefix 10.1101",
       estimate_total := 7 },
     { strategy := "member", id := "42", label := "Member 42", estimate_total := 7 }] rfl

/-- C3: `sample_preprints` with `n ≤ 0` returns the empty list without
issuing any request, and whenever it returns a list at all, that list has at
most `n` records (for any sort mode, date bounds, shuffle, and network). -/
theorem C3_sampler_at_most_n (net : CrNet) (cand : Candidate) (n : Int) (sort_mode : String)
    (df dt : Option String) (shuffle : List Item → List Item) :
    (n ≤ 0 → sample_preprints net cand n sort_mode df dt shuffle = (.ok [], []))
    ∧ ∀ out, (sample_preprints net cand n sort_mode df dt shuffle).1 = .ok out →
        out.length ≤ n.toNat := by
  constructor
  · intro hle
    unfold sample_preprints
    rw [if_pos hle]
  · intro out hout
    unfold sample_preprints at hout
    by_cases hle : n ≤ 0
    · rw [if_pos hle] at hout
      simp only [Except.ok.injEq] at hout
      subst hout
      simp
    · rw [if_neg hle] at hout
      cases hw : net.worksItems (sampleQuery cand n sort_mode df dt) with
      | error e =>
          simp only [hw] at hout
          exact absurd hout (by simp)
      | ok items =>
          simp only [hw, Except.ok.injEq] at hout
          subst hout
          by_cases hc : sort_mode = "random" ∧ items ≠ []
          · rw [if_pos hc]
            exact List.length_take_le _ _
          · rw [if_neg hc]
            exact List.length_take_le _ _

/-- Witness for C3: `n = 0` issues no request on a network whose sampling
endpoint would fail; `n = 2` on a pool of three items returns two. -/
theorem C3_sampler_at_most_n_witness :
    sample_preprints metaFailNet candA 0 "latest" none none id = (.ok [], [])
    ∧ ([Item.mk 1, Item.mk 2]).length ≤ (2 : Int).toNat :=
  ⟨(C3_sampler_at_most_n metaFailNet candA 0 "latest" none none id).1 (by decide),
   (C3_sampler_at_most_n itemNet candA 2 "latest" none none id).2 [⟨1⟩, ⟨2⟩] rfl⟩

/-- C8: in "random" mode with `n > 0`, `sample_preprints` issues exactly one
query whose row count is `min 50 (max 10 (5n))`, and (when `shuffle` is a
permutation, as `random.shuffle` is) the returned list is a subset of the
fetched pool of at most `n` records. -/
theorem C8_random_overfetch_pool (net : CrNet) (cand : Candidate) (n : Int)
    (df dt : Option String) (shuffle : List Item → List Item)
    (hn : 0 < n) (hperm : ∀ l : List Item, (shuffle l).Perm l) :
    (sample_preprints net cand n "random" df dt shuffle).2
      = [sampleQuery cand n "random" df dt]
    ∧ (sampleQuery cand n "random" df dt).rows = min 50 (max 10 (n * 5))
    ∧ ∀ pool out, net.worksItems (sampleQuery cand n "random" df dt) = .ok pool →
        (sample_preprints net cand n "random" df dt shuffle).1 = .ok out →
        out ⊆ pool ∧ out.length ≤ n.toNat := by
  have hnle : ¬ n ≤ 0 := by omega
  refine ⟨?_, ?_, ?_⟩
  · unfold sample_preprints
    rw [if_neg hnle]
    cases hw : net.worksItems (sampleQuery cand n "random" df dt) with
    | error e => simp [hw]
    | ok items => simp [hw]
  · have hpos : ¬ (min 50 (max 10 (n * 5)) < (1 : Int)) :=
      not_lt.mpr (le_min (by norm_num)
        (le_trans (by norm_num) (le_max_left 10 (n * 5))))
    simp only [sampleQuery]
    have h1 : (if ("random" : String) ≠ "random" then n else min 50 (max 10 (n * 5)))
        = min 50 (max 10 (n * 5)) := if_neg (by simp)
    rw [h1, if_neg hpos]
  · intro pool out hw hout
    unfold sample_preprints at hout
    rw [if_neg hnle] at hout
    simp only [hw, Except.ok.injEq] at hout
    by_cases hp : pool = []
    · subst hp
      simp only [ne_eq, not_true_eq_false, and_false, if_false] at hout
      subst hout
      exact ⟨by simp, by simp⟩
    · rw [if_pos (show True ∧ pool ≠ [] from ⟨trivial, hp⟩)] at hout
      subst hout
      exact ⟨List.Subset.trans (List.take_subset _ _) (hperm pool).subset,
             List.length_take_le _ _⟩

/-- Witness for C8: three-item pool, `n = 2`, identity shuffle. -/
theorem C8_random_overfetch_pool_witness :
    (sample_preprints itemNet candA 2 "random" none none id).2
      = [sampleQuery candA 2 "random" none none]
    ∧ (sampleQuery candA 2 "random" none none).rows = min 50 (max 10 (2 * 5))
    ∧ ([Item.mk 1, Item.mk 2] ⊆ [Item.mk 1, Item.mk 2, Item.mk 3]
       ∧ ([Item.mk 1, Item.mk 2]).length ≤ (2 : Int).toNat) :=
  ⟨(C8_random_overfetch_pool itemNet candA 2 none none id (by decide)
      (fun l => List.Perm.refl l)).1,
   (C8_random_overfetch_pool itemNet candA 2 none none id (by decide)
      (fun l => List.Perm.refl l)).2.1,
   (C8_random_overfetch_pool itemNet candA 2 none none id (by decide)
      (fun l => List.Perm.refl l)).2.2 [⟨1⟩, ⟨2⟩, ⟨3⟩] [⟨1⟩, ⟨2⟩] rfl rfl⟩

/-! Lemmas about the exporter. -/

theorem export_pairs_spec (net : CrNet) (lookup : String × String → Option Candidate)
    (slug name : String) (sample_n : Int) (sort_mode : String) (df dt : Option String)
    (shuffle : List Item → List Item) :
    ∀ (pairs : List (String × String)) (acc acc' : ExportAcc),
      export_pairs net lookup slug name sample_n sort_mode df dt shuffle pairs acc = .ok acc' →
      acc'.total_estimate = acc.total_estimate + (pairs.map (optTotal lookup)).sum
      ∧ ∀ f ∈ acc'.fetches, f ∈ acc.fetches ∨ f.1 = name := by
  intro pairs
  induction pairs with
  | nil =>
      intro acc acc' h
      simp only [export_pairs, Except.ok.injEq] at h
      subst h
      exact ⟨by simp, fun f hf => Or.inl hf⟩
  | cons p rest ih =>
      obtain ⟨strat, cid⟩ := p
      intro acc acc' h
      simp only [export_pairs] at h
      cases hl : lookup (strat, cid) with
      | none =>
          simp only [hl] at h
          obtain ⟨h1, h2⟩ := ih _ _ h
          constructor
          · rw [h1]
            simp [optTotal, hl, List.sum_cons]
          · intro f hf
            exact h2 f hf
      | some cand =>
          simp only [hl] at h
          by_cases hs : 0 < sample_n
          · rw [if_pos hs] at h
            cases hw : (sample_preprints net cand sample_n sort_mode
                (optStrTruthy ((df.map norm))) (optStrTruthy ((dt.map norm))) shuffle).1 with
            | error e =>
                simp only [hw] at h
                exact absurd h (by simp)
            | ok works =>
                simp only [hw] at h
                obtain ⟨h1, h2⟩ := ih _ _ h
                constructor
                · rw [h1]
                  simp only [List.map_cons, List.sum_cons, optTotal, hl]
                  show acc.total_estimate + cand.estimate_total + _ = _
                  ring
                · intro f hf
                  rcases h2 f hf with hin | hname
                  · rcases List.mem_append.mp hin with hin | hin
                    · exact Or.inl hin
                    · rcases List.mem_singleton.mp hin with rfl
                      exact Or.inr rfl
                  · exact Or.inr hname
          · rw [if_neg hs] at h
            obtain ⟨h1, h2⟩ := ih _ _ h
            constructor
            · rw [h1]
              simp only [List.map_cons, List.sum_cons, optTotal, hl]
              show acc.total_estimate + cand.estimate_total + _ = _
              ring
            · intro f hf
              exact h2 f hf

theorem build_loop_spec (net : CrNet) (lookup : String × String → Option Candidate)
    (cr_selected : String → List (String × String)) (sample_n : Int) (sort_mode : String)
    (df dt : Option String) (shuffle : List Item → List Item) :
    ∀ (l : List InputRow) (rs : List SummaryRow) (es : List ZipEntry) (fs : List Fetch),
      build_loop net lookup cr_selected sample_n sort_mode df dt shuffle l = .ok (rs, es, fs) →
      rs.map SummaryRow.server_name = l.map InputRow.server_name
      ∧ (∀ i row, l.get? i = some row →
          (cr_selected row.server_name = [] →
            rs.get? i = some (noSelectionRow row.server_name row.notes))
          ∧ (cr_selected row.server_name ≠ [] →
            ∃ acc, export_pairs net lookup (to_slug row.server_name) row.server_name sample_n
                sort_mode df dt shuffle (cr_selected row.server_name) ExportAcc.init = .ok acc
              ∧ rs.get? i = some (mkSummaryRow row.server_name row.notes acc)))
      ∧ ∀ f ∈ fs, ∃ row, row ∈ l ∧ f.1 = row.server_name ∧ cr_selected row.server_name ≠ [] := by
  intro l
  induction l with
  | nil =>
      intro rs es fs h
      simp only [build_loop, Except.ok.injEq, Prod.mk.injEq] at h
      obtain ⟨rfl, rfl, rfl⟩ := h
      refine ⟨rfl, ?_, ?_⟩
      · intro i row hrow
        exact absurd hrow (by simp)
      · intro f hf
        exact absurd hf (List.not_mem_nil f)
  | cons row rest ih =>
      intro rs es fs h
      simp only [build_loop] at h
      by_cases hsel : cr_selected row.server_name = []
      · rw [if_pos hsel] at h
        cases hb : build_loop net lookup cr_selected sample_n sort_mode df dt shuffle rest with
        | error e =>
            simp only [hb] at h
            exact absurd h (by simp)
        | ok t =>
            obtain ⟨rs', es', fs'⟩ := t
            simp only [hb, Except.ok.injEq, Prod.mk.injEq] at h
            obtain ⟨rfl, rfl, rfl⟩ := h
            obtain ⟨ih1, ih2, ih3⟩ := ih rs' es' fs' hb
            refine ⟨by simp [ih1, noSelectionRow], ?_, ?_⟩
            · intro i r hrow
              cases i with
              | zero =>
                  rw [List.get?_cons_zero] at hrow
                  injection hrow with hr
                  subst hr
                  exact ⟨fun _ => rfl, fun hne => absurd hsel hne⟩
              | succ j =>
                  rw [List.get?_cons_succ] at hrow
                  obtain ⟨hA, hB⟩ := ih2 j r hrow
                  exact ⟨fun h0 => by rw [List.get?_cons_succ]; exact hA h0,
                         fun hne => by
                           obtain ⟨acc, hacc, hget⟩ := hB hne
                           exact ⟨acc, hacc, by rw [List.get?_cons_succ]; exact hget⟩⟩
            · intro f hf
              obtain ⟨r, hr, h2, h3⟩ := ih3 f hf
              exact ⟨r, List.mem_cons_of_mem _ hr, h2, h3⟩
      · rw [if_neg hsel] at h
        cases hexp : export_pairs net lookup (to_slug row.server_name) row.server_name sample_n
            sort_mode df dt shuffle (cr_selected row.server_name) ExportAcc.init with
        | error e =>
            simp only [hexp] at h
            exact absurd h (by simp)
        | ok acc =>
            simp only [hexp] at h
            cases hb : build_loop net lookup cr_selected sample_n sort_mode df dt shuffle rest with
            | error e =>
                simp only [hb] at h
                exact absurd h (by simp)
            | ok t =>
                obtain ⟨rs', es', fs'⟩ := t
                simp only [hb, Except.ok.injEq, Prod.mk.injEq] at h
                obtain ⟨rfl, rfl, rfl⟩ := h
                obtain ⟨ih1, ih2, ih3⟩ := ih rs' es' fs' hb
                refine ⟨by simp [ih1, mkSummaryRow], ?_, ?_⟩
                · intro i r hrow
                  cases i with
                  | zero =>
                      rw [List.get?_cons_zero] at hrow
                      injection hrow with hr
                      subst hr
                      exact ⟨fun h0 => absurd h0 hsel, fun _ => ⟨acc, hexp, rfl⟩⟩
                  | succ j =>
                      rw [List.get?_cons_succ] at hrow
                      obtain ⟨hA, hB⟩ := ih2 j r hrow
                      exact ⟨fun h0 => by rw [List.get?_cons_succ]; exact hA h0,
                             fun hne => by
                               obtain ⟨acc2, hacc, hget⟩ := hB hne
                               exact ⟨acc2, hacc, by rw [List.get?_cons_succ]; exact hget⟩⟩
                · intro f hf
                  rcases List.mem_append.mp hf with hin | hin
                  · have := (export_pairs_spec net lookup (to_slug row.server_name)
                      row.server_name sample_n sort_mode df dt shuffle
                      (cr_selected row.server_name) ExportAcc.init acc hexp).2 f hin
                    rcases this with hin0 | hname
                    · exact absurd hin0 (List.not_mem_nil f)
                    · exact ⟨row, List.mem_cons_self _ _, hname, hsel⟩
                  · obtain ⟨r, hr, h2, h3⟩ := ih3 f hin
                    exact ⟨r, List.mem_cons_of_mem _ hr, h2, h3⟩

theorem int_sum_pos_iff :
    ∀ (l : List Int), (∀ x ∈ l, 0 ≤ x) → (0 < l.sum ↔ ∃ x ∈ l, 0 < x) := by
  intro l
  induction l with
  | nil => intro _; simp
  | cons x xs ih =>
      intro h
      have hx : 0 ≤ x := h x (List.mem_cons_self _ _)
      have hxs : ∀ y ∈ xs, 0 ≤ y := fun y hy => h y (List.mem_cons_of_mem _ hy)
      have hsum : 0 ≤ xs.sum := List.sum_nonneg hxs
      rw [List.sum_cons]
      constructor
      · intro hpos
        by_cases hx0 : 0 < x
        · exact ⟨x, List.mem_cons_self _ _, hx0⟩
        · have hxp : 0 < xs.sum := by omega
          obtain ⟨y, hy, hy0⟩ := (ih hxs).mp hxp
          exact ⟨y, List.mem_cons_of_mem _ hy, hy0⟩
      · rintro ⟨y, hy, hy0⟩
        rcases List.mem_cons.mp hy with rfl | hy
        · omega
        · have hxp : 0 < xs.sum := (ih hxs).mpr ⟨y, hy, hy0⟩
          omega

theorem cand_lookup_mem (cr_candidates : List (List Candidate)) (p : String × String)
    (c : Candidate) (h : cand_lookup cr_candidates p = some c) :
    c ∈ cr_candidates.flatten := by
  unfold cand_lookup at h
  exact List.mem_reverse.mp (List.mem_of_find?_eq_some h)

theorem dedup_rows_loop_nodup :
    ∀ (l : List InputRow) (seen : List String),
      ((dedup_rows_loop seen l).map InputRow.server_name).Nodup
      ∧ ∀ nm ∈ (dedup_rows_loop seen l).map InputRow.server_name, nm ∉ seen := by
  intro l
  induction l with
  | nil => intro seen; simp [dedup_rows_loop]
  | cons r rest ih =>
      intro seen
      by_cases hc : r.server_name ≠ "" ∧ r.server_name ∉ seen
      · rw [show dedup_rows_loop seen (r :: rest)
            = r :: dedup_rows_loop (r.server_name :: seen) rest from by
          simp [dedup_rows_loop, hc]]
        obtain ⟨hnd, hout⟩ := ih (r.server_name :: seen)
        refine ⟨?_, ?_⟩
        · rw [List.map_cons, List.nodup_cons]
          exact ⟨fun hin => (hout _ hin) (List.mem_cons_self _ _), hnd⟩
        · intro nm hnm
          rcases List.mem_cons.mp hnm with h | h
          · exact h ▸ hc.2
          · exact fun hs => (hout nm h) (List.mem_cons_of_mem _ hs)
      · rw [show dedup_rows_loop seen (r :: rest) = dedup_rows_loop seen rest from by
          simp [dedup_rows_loop, hc]]
        exact ih seen

/-- C5: a server with zero selected candidates gets the summary row
`presence_in_crossref = "no"`, empty matched strategy and id lists, zero
total and zero saved samples, and no sample fetch is attempted for it. -/
theorem C5_no_selection_row (net : CrNet) (cr_selected : String → List (String × String))
    (cr_candidates : List (List Candidate)) (original_rows : List InputRow)
    (sample_n : Int) (sort_mode : String) (df dt : Option String)
    (shuffle : List Item → List Item) (res : BuildResult) (i : Nat) (row : InputRow)
    (hb : build_zip_crossref net cr_selected cr_candidates original_rows sample_n sort_mode
      df dt shuffle = .ok res)
    (hrow : original_rows.get? i = some row)
    (hsel : cr_selected row.server_name = []) :
    res.rows.get? i = some
      { server_name := row.server_name, presence_in_crossref := "no",
        matched_strategy := "", matched_ids := "", total_results_estimate := 0,
        sample_count_saved := 0, notes := row.notes }
    ∧ ∀ f ∈ res.fetches, f.1 ≠ row.server_name := by
  simp only [build_zip_crossref] at hb
  cases hbl : build_loop net (cand_lookup cr_candidates) cr_selected sample_n sort_mode df dt
      shuffle original_rows with
  | error e =>
      simp only [hbl] at hb
      exact absurd hb (by simp)
  | ok t =>
      obtain ⟨rs, es, fs⟩ := t
      simp only [hbl, Except.ok.injEq] at hb
      subst hb
      obtain ⟨h1, h2, h3⟩ := build_loop_spec net (cand_lookup cr_candidates) cr_selected
        sample_n sort_mode df dt shuffle original_rows rs es fs hbl
      constructor
      · exact ((h2 i row hrow).1 hsel :
          rs.get? i = some (noSelectionRow row.server_name row.notes))
      · intro f hf hfn
        obtain ⟨r, hr, hname, hne⟩ := h3 f hf
        rw [hfn] at hname
        rw [hname] at hsel
        exact hne hsel

/-- Witness for C5: the concrete export of `[rowA, rowB]` under `selAB`
(nothing selected for `B`). -/
theorem C5_no_selection_row_witness :
    (demoBuildRes.rows.get? 1 = some
      { server_name := rowB.server_name, presence_in_crossref := "no",
        matched_strategy := "", matched_ids := "", total_results_estimate := 0,
        sample_count_saved := 0, notes := rowB.notes })
    ∧ ∀ f ∈ demoBuildRes.fetches, f.1 ≠ rowB.server_name :=
  C5_no_selection_row itemNet selAB [[candA]] [rowA, rowB] 0 "latest" none none id
    demoBuildRes 1 rowB rfl rfl rfl

/-- C6: for a server with at least one selected candidate (and non-negative
per-candidate totals, as Crossref counts are), its summary row has
`presence_in_crossref = "yes"` iff some selected candidate resolves in the
lookup to a candidate with estimated total > 0, equivalently iff the
accumulated `total_results_estimate` of the row is positive. -/
theorem C6_presence_iff (net : CrNet) (cr_selected : String → List (String × String))
    (cr_candidates : List (List Candidate)) (original_rows : List InputRow)
    (sample_n : Int) (sort_mode : String) (df dt : Option String)
    (shuffle : List Item → List Item) (res : BuildResult) (i : Nat) (row : InputRow)
    (hb : build_zip_crossref net cr_selected cr_candidates original_rows sample_n sort_mode
      df dt shuffle = .ok res)
    (hrow : original_rows.get? i = some row)
    (hne : cr_selected row.server_name ≠ [])
    (hnn : ∀ c ∈ cr_candidates.flatten, 0 ≤ c.estimate_total) :
    ∃ srow, res.rows.get? i = some srow
      ∧ (srow.presence_in_crossref = "yes" ↔
          ∃ p ∈ cr_selected row.server_name,
            ∃ c, cand_lookup cr_candidates p = some c ∧ 0 < c.estimate_total)
      ∧ (srow.presence_in_crossref = "yes" ↔ 0 < srow.total_results_estimate) := by
  simp only [build_zip_crossref] at hb
  cases hbl : build_loop net (cand_lookup cr_candidates) cr_selected sample_n sort_mode df dt
      shuffle original_rows with
  | error e =>
      simp only [hbl] at hb
      exact absurd hb (by simp)
  | ok t =>
      obtain ⟨rs, es, fs⟩ := t
      simp only [hbl, Except.ok.injEq] at hb
      subst hb
      obtain ⟨h1, h2, h3⟩ := build_loop_spec net (cand_lookup cr_candidates) cr_selected
        sample_n sort_mode df dt shuffle original_rows rs es fs hbl
      obtain ⟨acc, hacc, hget⟩ := (h2 i row hrow).2 hne
      have htot := (export_pairs_spec net (cand_lookup cr_candidates) (to_slug row.server_name)
        row.server_name sample_n sort_mode df dt shuffle (cr_selected row.server_name)
        ExportAcc.init acc hacc).1
      have htot2 : acc.total_estimate
          = ((cr_selected row.server_name).map (optTotal (cand_lookup cr_candidates))).sum := by
        rw [htot]
        simp [ExportAcc.init]
      have hnn2 : ∀ x ∈ (cr_selected row.server_name).map (optTotal (cand_lookup cr_candidates)),
          0 ≤ x := by
        intro x hx
        obtain ⟨p, _, rfl⟩ := List.mem_map.mp hx
        unfold optTotal
        cases hl : cand_lookup cr_candidates p with
        | none => simp
        | some c => exact hnn c (cand_lookup_mem cr_candidates p c hl)
      have hyes : (mkSummaryRow row.server_name row.notes acc).presence_in_crossref = "yes"
          ↔ 0 < acc.total_estimate := by
        unfold mkSummaryRow
        by_cases hpos : 0 < acc.total_estimate
        · simp [hpos]
        · simp only [if_neg hpos]
          constructor
          · intro hcontra
            exact absurd hcontra (by decide)
          · intro hcontra
            exact absurd hcontra hpos
      refine ⟨mkSummaryRow row.server_name row.notes acc, hget, ?_, ?_⟩
      · rw [hyes, htot2, int_sum_pos_iff _ hnn2]
        constructor
        · rintro ⟨x, hx, hx0⟩
          obtain ⟨p, hp, rfl⟩ := List.mem_map.mp hx
          refine ⟨p, hp, ?_⟩
          unfold optTotal at hx0
          cases hl : cand_lookup cr_candidates p with
          | none => rw [hl] at hx0; exact absurd hx0 (by simp)
          | some c =>
              rw [hl] at hx0
              exact ⟨c, rfl, hx0⟩
        · rintro ⟨p, hp, c, hl, hc0⟩
          refine ⟨optTotal (cand_lookup cr_candidates) p, List.mem_map_of_mem _ hp, ?_⟩
          unfold optTotal
          rw [hl]
          exact hc0
      · rw [hyes]
        exact Iff.rfl

/-- Witness for C6: server `A` of the concrete export, whose selected
candidate has estimated total 5. -/
theorem C6_presence_iff_witness :
    ∃ srow, demoBuildRes.rows.get? 0 = some srow
      ∧ (srow.presence_in_crossref = "yes" ↔
          ∃ p ∈ selAB rowA.server_name,
            ∃ c, cand_lookup [[candA]] p = some c ∧ 0 < c.estimate_total)
      ∧ (srow.presence_in_crossref = "yes" ↔ 0 < srow.total_results_estimate) :=
  C6_presence_iff itemNet selAB [[candA]] [rowA, rowB] 0 "latest" none none id
    demoBuildRes 0 rowA rfl rfl (by decide) (by decide)

/-- C10: a completed export over the name-deduplicated input rows produces
exactly one summary row per input server, in input order, with pairwise
distinct server names. -/
theorem C10_one_row_per_server (net : CrNet) (cr_selected : String → List (String × String))
    (cr_candidates : List (List Candidate)) (input : List InputRow)
    (sample_n : Int) (sort_mode : String) (df dt : Option String)
    (shuffle : List Item → List Item) (res : BuildResult)
    (hb : build_zip_crossref net cr_selected cr_candidates (dedup_rows input) sample_n
      sort_mode df dt shuffle = .ok res) :
    res.rows.map SummaryRow.server_name = (dedup_rows input).map InputRow.server_name
    ∧ (res.rows.map SummaryRow.server_name).Nodup := by
  simp only [build_zip_crossref] at hb
  cases hbl : build_loop net (cand_lookup cr_candidates) cr_selected sample_n sort_mode df dt
      shuffle (dedup_rows input) with
  | error e =>
      simp only [hbl] at hb
      exact absurd hb (by simp)
  | ok t =>
      obtain ⟨rs, es, fs⟩ := t
      simp only [hbl, Except.ok.injEq] at hb
      subst hb
      obtain ⟨h1, _, _⟩ := build_loop_spec net (cand_lookup cr_candidates) cr_selected
        sample_n sort_mode df dt shuffle (dedup_rows input) rs es fs hbl
      refine ⟨h1, ?_⟩
      rw [h1]
      exact (dedup_rows_loop_nodup input []).1

/-- Witness for C10: duplicated input `[rowA, rowA, rowB]` deduplicates to
two rows and exports to two summary rows with distinct names. -/
theorem C10_one_row_per_server_witness :
    demoBuildRes.rows.map SummaryRow.server_name
      = (dedup_rows [rowA, rowA, rowB]).map InputRow.server_name
    ∧ (demoBuildRes.rows.map SummaryRow.server_name).Nodup :=
  C10_one_row_per_server itemNet selAB [[candA]] [rowA, rowA, rowB] 0 "latest" none none id
    demoBuildRes rfl

end CrossrefApp
